import Mathlib

/-!
Verification of the LapTracker motion-detection pipeline
(src/components/MotionEngine.tsx): the worker diff engine (WORKER_CODE),
the trigger gate (handleMessage) and the zone sampler (processFrame
geometry), shallowly embedded in Lean.
-/

namespace LapTracker

/-! ## DiffEngine: the inline worker (WORKER_CODE, MotionEngine.tsx lines 12-61)

A pixel buffer is a list of bytes (RGBA, 4 bytes per pixel).  The worker
state is the retained baseline `prevPixels : Option (List ℕ)`.  JS doubles
are modelled as ℚ: all quantities here are integer ratios far below 2^53,
and the score/threshold comparison can never be decided by a double
rounding error (score and threshold differ by at least 1/pixelsChecked
when they differ at all, far above the ulp at this magnitude). -/

/-- Line 42: `const skip = pixels.length > 50000 ? 16 : 4;` (stride in pixels). -/
def skipOf (len : ℕ) : ℕ := if 50000 < len then 16 else 4

/-- The byte indices visited by a loop `for (i = 0; i < len; i += s)`:
`0, s, 2s, …` below `len` (for `s > 0` there are `⌈len/s⌉` of them). -/
def strideIndices (s len : ℕ) : List ℕ :=
  (List.range ((len + s - 1) / s)).map (fun k => k * s)

/-- Lines 45-49: `|pixels[i]-prev[i]| + |pixels[i+1]-prev[i+1]| + |pixels[i+2]-prev[i+2]|`.
Out-of-range reads are modelled with default 0; the safety claim C10 shows
they never occur on RGBA buffers. -/
def channelDiff (pixels prevPixels : List ℕ) (i : ℕ) : ℕ :=
  ((pixels.getD i 0 : ℤ) - (prevPixels.getD i 0 : ℤ)).natAbs +
  ((pixels.getD (i + 1) 0 : ℤ) - (prevPixels.getD (i + 1) 0 : ℤ)).natAbs +
  ((pixels.getD (i + 2) 0 : ℤ) - (prevPixels.getD (i + 2) 0 : ℤ)).natAbs

/-- Lines 44-51: the accumulated `diffScore` of the sampling loop
(`i` steps by `skip * 4` bytes). -/
def diffScore (pixels prevPixels : List ℕ) : ℕ :=
  ((strideIndices (skipOf pixels.length * 4) pixels.length).map
    (channelDiff pixels prevPixels)).sum

/-- Lines 44-51: the loop counter `pixelsChecked` (number of visited indices). -/
def pixelsChecked (len : ℕ) : ℕ :=
  (strideIndices (skipOf len * 4) len).length

/-- Line 53: `pixelsChecked > 0 ? diffScore / pixelsChecked : 0`. -/
def normalizedDiff (pixels prevPixels : List ℕ) : ℚ :=
  if 0 < pixelsChecked pixels.length then
    (diffScore pixels prevPixels : ℚ) / (pixelsChecked pixels.length : ℚ)
  else 0

/-- Lines 28-30: `if (prevPixels && prevPixels.length !== pixels.length) prevPixels = null;`. -/
def resetIfMismatch (prev : Option (List ℕ)) (len : ℕ) : Option (List ℕ) :=
  match prev with
  | none => none
  | some q => if q.length ≠ len then none else some q

/-- Lines 23-58, the PROCESS branch: returns the new worker state (the
retained baseline after `prevPixels = new Uint8ClampedArray(pixels)` /
`prevPixels.set(pixels)`) and the posted `diff`. -/
def processMsg (prev : Option (List ℕ)) (pixels : List ℕ) : Option (List ℕ) × ℚ :=
  match resetIfMismatch prev pixels.length with
  | none => (some pixels, 0)
  | some q => (some pixels, normalizedDiff pixels q)

/-! ## TriggerGate: the worker-message handler (MotionEngine.tsx lines 96-108) -/

/-- Line 70: `const lastTriggerRef = useRef<number>(0);`. -/
def lastTriggerInit : ℤ := 0

/-- Line 102: `const threshold = 105 - settings.sensitivity;`. -/
def threshold (sensitivity : ℤ) : ℤ := 105 - sensitivity

/-- The inputs read by one invocation of `handleMessage`: the posted score
and the values of `Date.now()`, the settings and `isMonitoring` at that
moment (settings and monitoring state can change between messages). -/
structure EvalInput where
  diff : ℚ
  now : ℤ
  sensitivity : ℤ
  cooldown : ℤ
  isMonitoring : Bool

/-- Lines 96-108: `onCooldown = now - lastTriggerRef.current < settings.cooldown`;
fire iff `diff > threshold && !onCooldown && isMonitoring`, in which case
`lastTriggerRef.current = now` and `onMotionTriggered(now)` is called.
The result is the new `lastTriggerRef` value and the list of emitted
trigger timestamps. -/
def handleMessage (lastTrigger : ℤ) (e : EvalInput) : ℤ × List ℤ :=
  if e.diff > ((threshold e.sensitivity : ℤ) : ℚ) ∧
      ¬ (e.now - lastTrigger < e.cooldown) ∧ e.isMonitoring = true then
    (e.now, [e.now])
  else
    (lastTrigger, [])

/-- A sequence of worker messages handled in order: final `lastTriggerRef`
value and the concatenation of all emitted trigger timestamps. -/
def runGate (s : ℤ) : List EvalInput → ℤ × List ℤ
  | [] => (s, [])
  | e :: es =>
    let r := handleMessage s e
    let rest := runGate r.1 es
    (rest.1, r.2 ++ rest.2)

/-! ## ZoneSampler: the geometry of processFrame (MotionEngine.tsx lines 205-211)

Percentages and pixel coordinates are JS doubles; the computation is a few
exact small-magnitude operations, modelled in ℚ. -/

/-- The zone-relevant settings fields (ConfigTab sliders: tripwireX/Y 0-100,
detectionWidth 1-50, detectionHeight 1-100). -/
structure ZoneSettings where
  tripwireX : ℚ
  tripwireY : ℚ
  detectionWidth : ℚ
  detectionHeight : ℚ

/-- Lines 205-211: the computed sample rectangle `(sampleX, sampleY, zoneW, zoneH)`. -/
def sampleRegion (s : ZoneSettings) (frameW frameH : ℚ) : ℚ × ℚ × ℚ × ℚ :=
  let centerX := s.tripwireX / 100 * frameW
  let centerY := s.tripwireY / 100 * frameH
  let zoneW := max 2 (s.detectionWidth / 100 * frameW)
  let zoneH := max 2 (s.detectionHeight / 100 * frameH)
  let sampleX := max 0 (min (frameW - zoneW) (centerX - zoneW / 2))
  let sampleY := max 0 (min (frameH - zoneH) (centerY - zoneH / 2))
  (sampleX, sampleY, zoneW, zoneH)

/-! ## Spec-side restatement of the scoring algorithm (for the refinement
claim C5): spec.md §4.3 describes the stride in pixels and the average over
visited pixels. -/

/-- Modelled from the spec: "stride = 4 pixels if total sample pixel count
≤ 12,500 (buffer length ≤ 50,000 bytes at 4 bytes/pixel), else 16 pixels". -/
def specStride (len : ℕ) : ℕ := if len ≤ 50000 then 4 else 16

/-- Modelled from the spec: the per-pixel accumulation
"|R_cur − R_base| + |G_cur − G_base| + |B_cur − B_base|" for pixel `j`
(channels at byte offsets 4j, 4j+1, 4j+2 of an RGBA buffer). -/
def pixelDiff (cur base : List ℕ) (j : ℕ) : ℕ :=
  ((cur.getD (4 * j) 0 : ℤ) - (base.getD (4 * j) 0 : ℤ)).natAbs +
  ((cur.getD (4 * j + 1) 0 : ℤ) - (base.getD (4 * j + 1) 0 : ℤ)).natAbs +
  ((cur.getD (4 * j + 2) 0 : ℤ) - (base.getD (4 * j + 2) 0 : ℤ)).natAbs

/-- Modelled from the spec: visit every `specStride`-th pixel of the
`len / 4` pixels, sum `pixelDiff` over the visited pixels, and return
sum ÷ number of visited pixels (0 when that count is 0). -/
def specScore (cur base : List ℕ) : ℚ :=
  let visitedPixels := strideIndices (specStride cur.length) (cur.length / 4)
  if visitedPixels.length = 0 then 0
  else ((visitedPixels.map (pixelDiff cur base)).sum : ℚ) / (visitedPixels.length : ℚ)

/-! ## Helper lemmas -/

lemma skipOf_pos (len : ℕ) : 0 < skipOf len := by
  unfold skipOf; split <;> norm_num

lemma mem_strideIndices {s len i : ℕ} (hs : 0 < s) :
    i ∈ strideIndices s len ↔ ∃ k, i = k * s ∧ i < len := by
  unfold strideIndices
  simp only [List.mem_map, List.mem_range]
  constructor
  · rintro ⟨k, hk, rfl⟩
    refine ⟨k, rfl, ?_⟩
    have h2 : k + 1 ≤ (len + s - 1) / s := hk
    have h3 : (k + 1) * s ≤ len + s - 1 := (Nat.le_div_iff_mul_le hs).mp h2
    rw [Nat.succ_mul] at h3
    set a := k * s with ha
    omega
  · rintro ⟨k, rfl, hlt⟩
    refine ⟨k, ?_, rfl⟩
    have h3 : (k + 1) * s ≤ len + s - 1 := by
      rw [Nat.succ_mul]
      set a := k * s with ha
      omega
    exact Nat.lt_of_succ_le ((Nat.le_div_iff_mul_le hs).mpr h3)

lemma strideIndices_length (s len : ℕ) :
    (strideIndices s len).length = (len + s - 1) / s := by
  unfold strideIndices
  simp

/-- The fire condition of `handleMessage`, written with `≥ cooldown` in
place of the code's `¬(· < cooldown)`. -/
def firesOn (lastTrigger : ℤ) (e : EvalInput) : Prop :=
  ((threshold e.sensitivity : ℤ) : ℚ) < e.diff ∧
    e.cooldown ≤ e.now - lastTrigger ∧ e.isMonitoring = true

instance (lastTrigger : ℤ) (e : EvalInput) : Decidable (firesOn lastTrigger e) := by
  unfold firesOn; infer_instance

lemma handleMessage_pos {lt : ℤ} {e : EvalInput} (h : firesOn lt e) :
    handleMessage lt e = (e.now, [e.now]) := by
  obtain ⟨h1, h2, h3⟩ := h
  unfold handleMessage
  rw [if_pos ⟨h1, not_lt.mpr (by omega), h3⟩]

lemma handleMessage_neg {lt : ℤ} {e : EvalInput} (h : ¬ firesOn lt e) :
    handleMessage lt e = (lt, []) := by
  unfold handleMessage
  rw [if_neg]
  intro ⟨h1, h2, h3⟩
  exact h ⟨h1, by omega, h3⟩

lemma handleMessage_fire_iff (lt : ℤ) (e : EvalInput) :
    (handleMessage lt e).2 ≠ [] ↔ firesOn lt e := by
  by_cases h : firesOn lt e
  · rw [handleMessage_pos h]
    simp [h]
  · rw [handleMessage_neg h]
    simp [h]

lemma gate_silent_of_diff_zero (lt : ℤ) (e : EvalInput) (h0 : e.diff = 0)
    (h1 : 1 ≤ e.sensitivity) (h2 : e.sensitivity ≤ 100) :
    (handleMessage lt e).2 = [] := by
  rw [handleMessage_neg]
  intro ⟨hd, _, _⟩
  rw [h0] at hd
  have ht : (0 : ℤ) < threshold e.sensitivity := by unfold threshold; omega
  have : ((threshold e.sensitivity : ℤ) : ℚ) > 0 := by exact_mod_cast ht
  linarith

lemma sum_map_zero {α : Type} (f : α → ℕ) (hf : ∀ a, f a = 0) :
    ∀ l : List α, (l.map f).sum = 0 := by
  intro l
  induction l with
  | nil => simp
  | cons a t ih => simp [hf, ih]

lemma runGate_cons (s : ℤ) (e : EvalInput) (es : List EvalInput) :
    runGate s (e :: es) =
      ((runGate (handleMessage s e).1 es).1,
        (handleMessage s e).2 ++ (runGate (handleMessage s e).1 es).2) := rfl

lemma runGate_all_blocked (t0 c : ℤ) :
    ∀ es : List EvalInput,
      (∀ e ∈ es, e.cooldown = c ∧ t0 < e.now ∧ e.now < t0 + c) →
      runGate t0 es = (t0, []) := by
  intro es
  induction es with
  | nil => intro _; rfl
  | cons e es ih =>
    intro h
    obtain ⟨hc, h1, h2⟩ := h e (List.mem_cons_self e es)
    have hnf : ¬ firesOn t0 e := by
      rintro ⟨_, hcd, _⟩
      omega
    rw [runGate_cons, handleMessage_neg hnf,
      ih (fun x hx => h x (List.mem_cons_of_mem e hx))]
    rfl

lemma chain'_of_chain {R : ℤ → ℤ → Prop} {s : ℤ} {l : List ℤ}
    (h : List.Chain R s l) : List.Chain' R l := by
  cases h with
  | nil => exact List.chain'_nil
  | cons hr hc => exact hc

lemma runGate_chain_le :
    ∀ (es : List EvalInput) (s : ℤ), (∀ e ∈ es, 0 ≤ e.cooldown) →
      List.Chain (· ≤ ·) s (runGate s es).2 := by
  intro es
  induction es with
  | nil => intro s _; exact List.Chain.nil
  | cons e es ih =>
    intro s h
    have hc : 0 ≤ e.cooldown := h e (List.mem_cons_self e es)
    have hrest : ∀ x ∈ es, 0 ≤ x.cooldown :=
      fun x hx => h x (List.mem_cons_of_mem e hx)
    by_cases hf : firesOn s e
    · have hs : s ≤ e.now := by
        obtain ⟨_, h2, _⟩ := hf
        omega
      rw [runGate_cons, handleMessage_pos hf]
      exact List.Chain.cons hs (ih e.now hrest)
    · rw [runGate_cons, handleMessage_neg hf]
      exact ih s hrest

lemma runGate_chain_lt :
    ∀ (es : List EvalInput) (s : ℤ), (∀ e ∈ es, 0 < e.cooldown) →
      List.Chain (· < ·) s (runGate s es).2 := by
  intro es
  induction es with
  | nil => intro s _; exact List.Chain.nil
  | cons e es ih =>
    intro s h
    have hc : 0 < e.cooldown := h e (List.mem_cons_self e es)
    have hrest : ∀ x ∈ es, 0 < x.cooldown :=
      fun x hx => h x (List.mem_cons_of_mem e hx)
    by_cases hf : firesOn s e
    · have hs : s < e.now := by
        obtain ⟨_, h2, _⟩ := hf
        omega
      rw [runGate_cons, handleMessage_pos hf]
      exact List.Chain.cons hs (ih e.now hrest)
    · rw [runGate_cons, handleMessage_neg hf]
      exact ih s hrest

/-! ## The claims -/

/-- C1: the trigger gate fires iff `score > threshold` AND
`now − lastTrigger ≥ cooldown` AND monitoring is enabled; on a fire the
last-trigger timestamp becomes `now` and exactly one event carrying `now`
is emitted (list `[now]`); otherwise the state is unchanged and nothing is
emitted. -/
theorem C1_gate_fires_iff (lt : ℤ) (e : EvalInput) :
    ((handleMessage lt e).2 ≠ [] ↔
      (((threshold e.sensitivity : ℤ) : ℚ) < e.diff ∧
        e.cooldown ≤ e.now - lt ∧ e.isMonitoring = true)) ∧
    ((((threshold e.sensitivity : ℤ) : ℚ) < e.diff ∧
        e.cooldown ≤ e.now - lt ∧ e.isMonitoring = true) →
      handleMessage lt e = (e.now, [e.now])) ∧
    (¬ (((threshold e.sensitivity : ℤ) : ℚ) < e.diff ∧
        e.cooldown ≤ e.now - lt ∧ e.isMonitoring = true) →
      handleMessage lt e = (lt, [])) :=
  ⟨handleMessage_fire_iff lt e,
   fun h => handleMessage_pos h,
   fun h => handleMessage_neg h⟩

/-- C1 witness: a concrete firing evaluation. -/
theorem C1_gate_fires_iff_witness :
    handleMessage 0 ⟨1000, 2000, 100, 1000, true⟩ = (2000, [2000]) :=
  (C1_gate_fires_iff 0 ⟨1000, 2000, 100, 1000, true⟩).2.1
    ⟨by norm_num [threshold], by norm_num, rfl⟩

/-- C2: after a fire at `t0` (which always sets the stored timestamp to the
firing `now`), no evaluation with `now ∈ (t0, t0 + c)` and cooldown `c`
fires, whatever its score, sensitivity and monitoring flag, and the stored
timestamp stays `t0`; from state `t0` an evaluation with qualifying score
and monitoring on fires exactly when `now - t0 ≥ c`. -/
theorem C2_cooldown_enforced (t0 c : ℤ) (es : List EvalInput)
    (h : ∀ e ∈ es, e.cooldown = c ∧ t0 < e.now ∧ e.now < t0 + c) :
    runGate t0 es = (t0, []) ∧
    (∀ (lt : ℤ) (e : EvalInput), (handleMessage lt e).2 ≠ [] →
      (handleMessage lt e).1 = e.now) ∧
    (∀ e : EvalInput, e.cooldown = c →
      ((threshold e.sensitivity : ℤ) : ℚ) < e.diff → e.isMonitoring = true →
      ((handleMessage t0 e).2 ≠ [] ↔ c ≤ e.now - t0)) := by
  refine ⟨runGate_all_blocked t0 c es h, ?_, ?_⟩
  · intro lt e hne
    rw [(handleMessage_fire_iff lt e).mp hne |> handleMessage_pos]
  · intro e hc hd hm
    rw [handleMessage_fire_iff]
    unfold firesOn
    constructor
    · rintro ⟨_, h2, _⟩; omega
    · intro h2; exact ⟨hd, by omega, hm⟩

/-- C2 witness: a fire at 1000 with cooldown 500 blocks an over-threshold
evaluation at 1200. -/
theorem C2_cooldown_enforced_witness :
    runGate 1000 [⟨1000, 1200, 100, 500, true⟩] = (1000, []) :=
  (C2_cooldown_enforced 1000 500 [⟨1000, 1200, 100, 500, true⟩]
    (by
      intro e he
      rw [List.mem_singleton] at he
      subst he
      exact ⟨rfl, by norm_num, by norm_num⟩)).1

/-- C3 counterexample: the last-trigger timestamp is initialized to `0`,
not to −∞: at `now = 0` with cooldown `1`, an over-threshold monitored
evaluation is blocked by the cooldown check even though no fire has ever
occurred. -/
theorem C3_counterexample :
    ((threshold 100 : ℤ) : ℚ) < 1000 ∧ (0 : ℤ) ≤ 0 ∧
      (handleMessage lastTriggerInit ⟨1000, 0, 100, 1, true⟩).2 = [] := by
  refine ⟨by norm_num [threshold], le_refl 0, ?_⟩
  decide

/-- C3 amended: the last-trigger timestamp is initialized to `0`; before
any fire, the cooldown check therefore never blocks an evaluation whose
time satisfies `now ≥ cooldown` (it can block when `now < cooldown`). -/
theorem C3_init_never_blocks :
    lastTriggerInit = 0 ∧
    ∀ e : EvalInput, e.cooldown ≤ e.now →
      ((threshold e.sensitivity : ℤ) : ℚ) < e.diff → e.isMonitoring = true →
      handleMessage lastTriggerInit e = (e.now, [e.now]) := by
  refine ⟨rfl, ?_⟩
  intro e hnow hd hm
  apply handleMessage_pos
  exact ⟨hd, by unfold lastTriggerInit; omega, hm⟩

/-- C3 witness: with the initial state, an evaluation at `now = 5000` with
cooldown `1000` fires. -/
theorem C3_init_never_blocks_witness :
    handleMessage lastTriggerInit ⟨500, 5000, 50, 1000, true⟩ = (5000, [5000]) :=
  C3_init_never_blocks.2 ⟨500, 5000, 50, 1000, true⟩ (by norm_num)
    (by norm_num [threshold]) rfl

/-- C6: the threshold is `105 − sensitivity`, strictly decreasing on
`[1, 100]`, with `threshold 1 = 104` and `threshold 100 = 5`. -/
theorem C6_threshold_mapping (s s1 s2 : ℤ) :
    threshold s = 105 - s ∧ threshold 1 = 104 ∧ threshold 100 = 5 ∧
    (1 ≤ s1 → s1 < s2 → s2 ≤ 100 → threshold s2 < threshold s1) := by
  unfold threshold
  omega

/-- C6 witness: sensitivity 100 gives a strictly lower threshold than
sensitivity 1. -/
theorem C6_threshold_mapping_witness : threshold 100 < threshold 1 :=
  (C6_threshold_mapping 0 1 100).2.2.2 (by norm_num) (by norm_num) (by norm_num)

/-- C9: each score message emits at most one trigger, and over any sequence
of evaluations from any starting state, the emitted timestamps are
non-decreasing when every cooldown is ≥ 0 and strictly increasing when
every cooldown is > 0, for arbitrary (even non-monotone) clock values. -/
theorem C9_monotone_timestamps (s : ℤ) (es : List EvalInput) :
    (∀ (lt : ℤ) (e : EvalInput), ((handleMessage lt e).2).length ≤ 1) ∧
    ((∀ e ∈ es, 0 ≤ e.cooldown) → List.Chain' (· ≤ ·) (runGate s es).2) ∧
    ((∀ e ∈ es, 0 < e.cooldown) → List.Chain' (· < ·) (runGate s es).2) := by
  refine ⟨?_, ?_, ?_⟩
  · intro lt e
    by_cases hf : firesOn lt e
    · rw [handleMessage_pos hf]; norm_num
    · rw [handleMessage_neg hf]; norm_num
  · intro h
    exact chain'_of_chain (runGate_chain_le es s h)
  · intro h
    exact chain'_of_chain (runGate_chain_lt es s h)

/-- C9 witness: two fires 1000 ms apart with cooldown 1000 emit the
strictly increasing timestamps [2000, 3000]. -/
theorem C9_monotone_timestamps_witness :
    List.Chain' (· < ·)
      (runGate 0 [⟨1000, 2000, 100, 1000, true⟩, ⟨1000, 3000, 100, 1000, true⟩]).2 :=
  (C9_monotone_timestamps 0
      [⟨1000, 2000, 100, 1000, true⟩, ⟨1000, 3000, 100, 1000, true⟩]).2.2
    (by
      intro e he
      rcases List.mem_cons.mp he with h | h
      · subst h; norm_num
      · rw [List.mem_singleton] at h; subst h; norm_num)

/-- C4: with no baseline, or a baseline of different byte length, the
worker stores the sample as the new baseline and returns score exactly 0;
the threshold is positive for every sensitivity in [1, 100], so an
evaluation carrying that score never fires. -/
theorem C4_reset_scores_zero :
    (∀ pixels : List ℕ, processMsg none pixels = (some pixels, 0)) ∧
    (∀ base pixels : List ℕ, base.length ≠ pixels.length →
      processMsg (some base) pixels = (some pixels, 0)) ∧
    (∀ s : ℤ, 1 ≤ s → s ≤ 100 → 0 < threshold s) ∧
    (∀ (lt : ℤ) (e : EvalInput), e.diff = 0 → 1 ≤ e.sensitivity →
      e.sensitivity ≤ 100 → (handleMessage lt e).2 = []) := by
  refine ⟨?_, ?_, ?_, gate_silent_of_diff_zero⟩
  · intro pixels
    rfl
  · intro base pixels hne
    unfold processMsg resetIfMismatch
    simp [hne]
  · intro s h1 h2
    unfold threshold
    omega

/-- C4 witness: a length-4 baseline against a length-8 sample resets and
scores 0, and a zero-score evaluation does not fire. -/
theorem C4_reset_scores_zero_witness :
    processMsg (some [0, 0, 0, 0]) [1, 2, 3, 4, 5, 6, 7, 8] =
      (some [1, 2, 3, 4, 5, 6, 7, 8], 0) ∧
    (handleMessage 0 ⟨0, 5000, 50, 2000, true⟩).2 = [] :=
  ⟨C4_reset_scores_zero.2.1 [0, 0, 0, 0] [1, 2, 3, 4, 5, 6, 7, 8] (by decide),
   C4_reset_scores_zero.2.2.2 0 ⟨0, 5000, 50, 2000, true⟩ rfl
     (by norm_num) (by norm_num)⟩

lemma normalizedDiff_self (b : List ℕ) : normalizedDiff b b = 0 := by
  unfold normalizedDiff
  have h : diffScore b b = 0 := by
    unfold diffScore
    exact sum_map_zero _ (fun i => by simp [channelDiff]) _
  rw [h]
  split <;> simp

lemma processMsg_self (b : List ℕ) : processMsg (some b) b = (some b, 0) := by
  unfold processMsg resetIfMismatch
  simp [normalizedDiff_self]

/-- C8: scoring a buffer against a byte-for-byte equal baseline yields
score exactly 0 (the baseline being replaced by the equal buffer), and the
resulting evaluation never fires for any sensitivity in [1, 100]. -/
theorem C8_identical_buffers_zero :
    (∀ b : List ℕ, processMsg (some b) b = (some b, 0)) ∧
    (∀ (b : List ℕ) (lt : ℤ) (e : EvalInput),
      e.diff = (processMsg (some b) b).2 → 1 ≤ e.sensitivity →
      e.sensitivity ≤ 100 → (handleMessage lt e).2 = []) := by
  refine ⟨processMsg_self, ?_⟩
  intro b lt e hd h1 h2
  rw [processMsg_self] at hd
  exact gate_silent_of_diff_zero lt e hd h1 h2

/-- C8 witness: a concrete buffer scored against itself gives 0 and the
evaluation carrying that score stays silent. -/
theorem C8_identical_buffers_zero_witness :
    (handleMessage 0 ⟨(processMsg (some [3, 1, 4, 1]) [3, 1, 4, 1]).2, 7, 99, 5, true⟩).2 = [] :=
  C8_identical_buffers_zero.2 [3, 1, 4, 1] 0
    ⟨(processMsg (some [3, 1, 4, 1]) [3, 1, 4, 1]).2, 7, 99, 5, true⟩
    rfl (by norm_num) (by norm_num)

/-- C10: on an RGBA buffer (length a multiple of 4), every byte index `i`
visited by the scoring loop satisfies `i + 2 < length`, so the reads at
`i`, `i+1`, `i+2` are in bounds; and whenever the compute branch (the one
ending in `prevPixels.set(pixels)`) is reached, the retained baseline has
exactly the sample's length. -/
theorem C10_memory_safety (pixels : List ℕ) (prev : Option (List ℕ))
    (h4 : 4 ∣ pixels.length) :
    (∀ i ∈ strideIndices (skipOf pixels.length * 4) pixels.length,
      i + 2 < pixels.length) ∧
    (∀ q : List ℕ, resetIfMismatch prev pixels.length = some q →
      q.length = pixels.length) := by
  constructor
  · intro i hi
    have hs : 0 < skipOf pixels.length * 4 :=
      Nat.mul_pos (skipOf_pos pixels.length) (by norm_num)
    rw [mem_strideIndices hs] at hi
    obtain ⟨k, rfl, hlt⟩ := hi
    have h4i : 4 ∣ k * (skipOf pixels.length * 4) :=
      ⟨k * skipOf pixels.length, by ring⟩
    set a := k * (skipOf pixels.length * 4) with ha
    omega
  · intro q hq
    unfold resetIfMismatch at hq
    cases prev with
    | none => exact absurd hq (by simp)
    | some p =>
      have hq' : (if p.length ≠ pixels.length then (none : Option (List ℕ))
          else some p) = some q := hq
      by_cases hp : p.length ≠ pixels.length
      · rw [if_pos hp] at hq'
        exact absurd hq' (by simp)
      · rw [if_neg hp] at hq'
        cases hq'
        omega

/-- C10 witness: an 8-byte RGBA buffer; the only visited index is 0 and
`0 + 2 < 8`. -/
theorem C10_memory_safety_witness :
    (0 : ℕ) + 2 < ([1, 2, 3, 4, 5, 6, 7, 8] : List ℕ).length :=
  (C10_memory_safety [1, 2, 3, 4, 5, 6, 7, 8] (some [9]) (by decide)).1 0 (by decide)

lemma skipOf_of_le {len : ℕ} (h : len ≤ 50000) : skipOf len = 4 := by
  unfold skipOf
  rw [if_neg (by omega)]

lemma skipOf_of_gt {len : ℕ} (h : 50000 < len) : skipOf len = 16 := by
  unfold skipOf
  rw [if_pos h]

lemma specStride_of_le {len : ℕ} (h : len ≤ 50000) : specStride len = 4 := by
  unfold specStride
  rw [if_pos h]

lemma specStride_of_gt {len : ℕ} (h : 50000 < len) : specStride len = 16 := by
  unfold specStride
  rw [if_neg (by omega)]

lemma normalizedDiff_eq_spec_aux (cur base : List ℕ) (st : ℕ)
    (hsk : skipOf cur.length = st) (hsp : specStride cur.length = st)
    (hcnt : (cur.length + st * 4 - 1) / (st * 4) = (cur.length / 4 + st - 1) / st) :
    normalizedDiff cur base = specScore cur base := by
  have hfun : (channelDiff cur base ∘ fun k => k * (st * 4)) =
      (pixelDiff cur base ∘ fun k => k * st) := by
    funext k
    show channelDiff cur base (k * (st * 4)) = pixelDiff cur base (k * st)
    unfold channelDiff pixelDiff
    have e0 : k * (st * 4) = 4 * (k * st) := by ring
    rw [e0]
  simp only [normalizedDiff, specScore, pixelsChecked, diffScore, strideIndices,
    hsk, hsp, hcnt, List.map_map, List.length_map, List.length_range, hfun]
  set N := (cur.length / 4 + st - 1) / st with hN
  rcases Nat.eq_zero_or_pos N with h0 | h0
  · simp [h0]
  · rw [if_pos h0, if_neg (by omega)]

lemma normalizedDiff_eq_specScore (cur base : List ℕ) (h4 : 4 ∣ cur.length) :
    normalizedDiff cur base = specScore cur base := by
  rcases le_or_lt cur.length 50000 with h | h
  · exact normalizedDiff_eq_spec_aux cur base 4 (skipOf_of_le h)
      (specStride_of_le h) (by omega)
  · exact normalizedDiff_eq_spec_aux cur base 16 (skipOf_of_gt h)
      (specStride_of_gt h) (by omega)

/-- C5: with a matching-length baseline held, the worker's score equals the
spec's description — visit every 4th pixel when the buffer is at most
50,000 bytes and every 16th otherwise, sum the three-channel absolute
differences over the visited pixels, and divide by the number of visited
pixels (0 when that count is 0) — and the baseline becomes the scored
sample. -/
theorem C5_score_formula (cur base : List ℕ) (h4 : 4 ∣ cur.length)
    (hlen : base.length = cur.length) :
    processMsg (some base) cur = (some cur, specScore cur base) := by
  have hguard : resetIfMismatch (some base) cur.length = some base := by
    unfold resetIfMismatch
    simp [hlen]
  unfold processMsg
  rw [hguard]
  show (some cur, normalizedDiff cur base) = (some cur, specScore cur base)
  rw [normalizedDiff_eq_specScore cur base h4]

/-- C5 witness: a two-pixel buffer scored against a zero baseline. -/
theorem C5_score_formula_witness :
    processMsg (some [0, 0, 0, 0, 0, 0, 0, 0]) [3, 0, 0, 0, 9, 9, 9, 0] =
      (some [3, 0, 0, 0, 9, 9, 9, 0],
        specScore [3, 0, 0, 0, 9, 9, 9, 0] [0, 0, 0, 0, 0, 0, 0, 0]) :=
  C5_score_formula [3, 0, 0, 0, 9, 9, 9, 0] [0, 0, 0, 0, 0, 0, 0, 0]
    (by decide) (by decide)

/-- C7: for zone centers in [0, 100]%, width in [1, 50]%, height in
[1, 100]% and frame dimensions at least 4, the computed sample rectangle
lies fully inside the frame and its sides are at least 2 pixels. -/
theorem C7_region_inside_frame (s : ZoneSettings) (W H : ℚ)
    (hx0 : 0 ≤ s.tripwireX) (hx1 : s.tripwireX ≤ 100)
    (hy0 : 0 ≤ s.tripwireY) (hy1 : s.tripwireY ≤ 100)
    (hw0 : 1 ≤ s.detectionWidth) (hw1 : s.detectionWidth ≤ 50)
    (hh0 : 1 ≤ s.detectionHeight) (hh1 : s.detectionHeight ≤ 100)
    (hW : 4 ≤ W) (hH : 4 ≤ H) :
    0 ≤ (sampleRegion s W H).1 ∧
    (sampleRegion s W H).1 + (sampleRegion s W H).2.2.1 ≤ W ∧
    0 ≤ (sampleRegion s W H).2.1 ∧
    (sampleRegion s W H).2.1 + (sampleRegion s W H).2.2.2 ≤ H ∧
    2 ≤ (sampleRegion s W H).2.2.1 ∧
    2 ≤ (sampleRegion s W H).2.2.2 := by
  have hW0 : (0 : ℚ) ≤ W := by linarith
  have hH0 : (0 : ℚ) ≤ H := by linarith
  simp only [sampleRegion]
  set zw := max 2 (s.detectionWidth / 100 * W) with hzwdef
  set zh := max 2 (s.detectionHeight / 100 * H) with hzhdef
  have hzw : zw ≤ W := by
    apply max_le (by linarith)
    rw [div_mul_eq_mul_div, div_le_iff₀ (by norm_num : (0 : ℚ) < 100)]
    nlinarith
  have hzh : zh ≤ H := by
    apply max_le (by linarith)
    rw [div_mul_eq_mul_div, div_le_iff₀ (by norm_num : (0 : ℚ) < 100)]
    nlinarith
  refine ⟨le_max_left _ _, ?_, le_max_left _ _, ?_, le_max_left _ _, le_max_left _ _⟩
  · have h1 : max 0 (min (W - zw) (s.tripwireX / 100 * W - zw / 2)) ≤ W - zw :=
      max_le (by linarith) (min_le_left _ _)
    linarith
  · have h1 : max 0 (min (H - zh) (s.tripwireY / 100 * H - zh / 2)) ≤ H - zh :=
      max_le (by linarith) (min_le_left _ _)
    linarith

/-- C7 witness: the default settings (center 50%, 15%×15% zone) on a
640×360 frame. -/
theorem C7_region_inside_frame_witness :
    0 ≤ (sampleRegion ⟨50, 50, 15, 15⟩ 640 360).1 ∧
    (sampleRegion ⟨50, 50, 15, 15⟩ 640 360).1 +
      (sampleRegion ⟨50, 50, 15, 15⟩ 640 360).2.2.1 ≤ 640 ∧
    0 ≤ (sampleRegion ⟨50, 50, 15, 15⟩ 640 360).2.1 ∧
    (sampleRegion ⟨50, 50, 15, 15⟩ 640 360).2.1 +
      (sampleRegion ⟨50, 50, 15, 15⟩ 640 360).2.2.2 ≤ 360 ∧
    2 ≤ (sampleRegion ⟨50, 50, 15, 15⟩ 640 360).2.2.1 ∧
    2 ≤ (sampleRegion ⟨50, 50, 15, 15⟩ 640 360).2.2.2 :=
  C7_region_inside_frame ⟨50, 50, 15, 15⟩ 640 360 (by norm_num) (by norm_num)
    (by norm_num) (by norm_num) (by norm_num) (by norm_num) (by norm_num)
    (by norm_num) (by norm_num) (by norm_num)

end LapTracker
